import Mathlib

/-!
Verification of the atrium-nlp-enrich enrichment pipeline.

This file gives a shallow embedding of the core of the repository:

* `api_util/analyze.py` — the CNEC type table (`CNEC_TYPE_MAP`), the tag
  parser (`parse_tag_and_type`), the page-grouping BIO span decoder
  (`get_entities_by_page`), and the per-page aggregation in `main`
  (`aggTriples`, `mkRow`, `aggRows`).
* `merger_nt_udp.py` — the TSV reader and the CoNLL-U/TSV aligner-merger
  (`merge_read_tsv`, `merge_single_pair`).
* `api_util/summarize_nt_udp.py` — the per-document TSV gathering
  (`sum_read_file`, from `get_sorted_tsv_content`).

Python strings are modelled as Lean `String`; the handful of Python string
operations used by the sources (strip, split, startswith, membership,
slicing, join) are re-implemented by structural recursion on the underlying
character list, so that every definition evaluates by `decide` and is easy
to reason about by induction.
-/

/-! ## Character-level models of the Python string operations used. -/

/-- Python `s.split(sep)` for a single-character separator, on char lists.
`"".split(c)` is `[""]`, i.e. the result is never empty. -/
def splitOnChar (sep : Char) : List Char → List (List Char)
  | [] => [[]]
  | c :: cs =>
    if c = sep then [] :: splitOnChar sep cs
    else
      match splitOnChar sep cs with
      | [] => [[c]]
      | h :: t => (c :: h) :: t

/-- Split on a character predicate (used for Python whitespace `split()`). -/
def splitPChars (p : Char → Bool) : List Char → List (List Char)
  | [] => [[]]
  | c :: cs =>
    if p c then [] :: splitPChars p cs
    else
      match splitPChars p cs with
      | [] => [[c]]
      | h :: t => (c :: h) :: t

/-- Join char lists with a separator (Python `sep.join`). -/
def joinChars (sep : List Char) : List (List Char) → List Char
  | [] => []
  | [x] => x
  | x :: xs => x ++ sep ++ joinChars sep xs

/-- Strip ASCII whitespace from both ends (Python `s.strip()`). -/
def trimChars (cs : List Char) : List Char :=
  ((cs.dropWhile Char.isWhitespace).reverse.dropWhile Char.isWhitespace).reverse

/-- Substring containment (Python `sub in s`) on char lists. -/
def containsSub (pat : List Char) : List Char → Bool
  | [] => pat.isEmpty
  | c :: cs => pat.isPrefixOf (c :: cs) || containsSub pat cs

/-- Python `s.split(sep)` for a one-character separator. -/
def pySplit (sep : Char) (s : String) : List String :=
  (splitOnChar sep s.data).map (fun cs => ⟨cs⟩)

/-- Python `s.split(sep, 1)`: split only at the first occurrence. -/
def pySplit1 (sep : Char) (s : String) : List String :=
  match splitOnChar sep s.data with
  | [] => [s]
  | [x] => [⟨x⟩]
  | x :: rest => [⟨x⟩, ⟨joinChars [sep] rest⟩]

/-- Python `s.split()`: split on whitespace runs, dropping empty pieces. -/
def pySplitWs (s : String) : List String :=
  ((splitPChars Char.isWhitespace s.data).filter (fun cs => !cs.isEmpty)).map
    (fun cs => ⟨cs⟩)

/-- Python `s.strip()`. -/
def pyTrim (s : String) : String := ⟨trimChars s.data⟩

/-- Python `s.startswith(pre)`. -/
def pyStartsWith (pre s : String) : Bool := pre.data.isPrefixOf s.data

/-- Python `sub in s` (substring containment). -/
def pyContains (sub s : String) : Bool := containsSub sub.data s.data

/-- Python `c in s` for a single character. -/
def pyCharIn (c : Char) (s : String) : Bool := s.data.contains c

/-- Python `s[n:]` (slicing by code points). -/
def pyDropN (n : Nat) (s : String) : String := ⟨s.data.drop n⟩

/-- Python `len(s)` (in code points). -/
def pyLen (s : String) : Nat := s.data.length

/-- Python `sep.join(l)`. -/
def pyJoin (sep : String) (l : List String) : String :=
  ⟨joinChars sep.data (l.map (fun s => s.data))⟩

/-! ## api_util/analyze.py — CNEC type table and tag parsing. -/

/-- The fixed CNEC 2.0 type table of `api_util/analyze.py` lines 13-96,
as an association list in source order (Python dict insertion order). -/
def CNEC_TYPE_MAP : List (String × String) := [
  ("a", "Address/Number/Time (General)"),
  ("A", "Complex Address/Number/Time"),
  ("ah", "Street address"),
  ("at", "Phone/Fax number"),
  ("az", "Zip code"),
  ("g", "Geographical name (General)"),
  ("G", "Geographical name (General)"),
  ("g_", "Geographical name (General)"),
  ("gu", "Settlement name (City/Town)"),
  ("gl", "Nature/Landscape name (Mountain/River)"),
  ("gq", "Urban geographical name (Street/Square)"),
  ("gr", "Territorial name (State/Region)"),
  ("gs", "Super-terrestrial name (Star/Planet)"),
  ("gc", "States/Provinces/Regions"),
  ("gt", "Continents"),
  ("gh", "Hydronym (Bodies of water)"),
  ("i", "Institution name (General)"),
  ("i_", "Institution name (General)"),
  ("I", "Institution name (General)"),
  ("ia", "Conference/Contest"),
  ("if", "Company/Firm"),
  ("io", "Organization/Society"),
  ("ic", "Cult/Educational institution"),
  ("m", "Media name (General)"),
  ("mn", "Periodical name (Newspaper/Magazine)"),
  ("ms", "Radio/TV station"),
  ("mi", "Internet links"),
  ("o", "Artifact name (General)"),
  ("o_", "Artifact name (General)"),
  ("oa", "Cultural artifact (Book/Painting)"),
  ("oe", "Measure unit"),
  ("om", "Currency"),
  ("or", "Directives, norms"),
  ("op", "Product (General)"),
  ("p", "Personal name (General)"),
  ("p_", "Personal name (General)"),
  ("P", "Complex personal names"),
  ("pf", "First name"),
  ("ps", "Surname"),
  ("pm", "Second name"),
  ("ph", "Nickname/Pseudonym"),
  ("pc", "Inhabitant name"),
  ("pd", "Academic titles"),
  ("pp", "Relig./myth persons"),
  ("me", "Email address"),
  ("t", "Time expression (General)"),
  ("T", "Complex time expressions"),
  ("td", "Day"),
  ("th", "Hour"),
  ("tm", "Month"),
  ("ty", "Year"),
  ("tf", "Holiday/Feast"),
  ("tt", "Time block"),
  ("n", "Number expression (General)"),
  ("N", "Complex number expressions"),
  ("n_", "Number expression (General)"),
  ("na", "Age"),
  ("nb", "Volu-metric number"),
  ("nc", "Cardinal number"),
  ("ni", "Itemizer (1.)"),
  ("no", "Ordinal number"),
  ("ns", "Sport score"),
  ("unk", "Unknown Type"),
  ("O", "None"),
  ("C", "Complex bibliographic expression")]

/-- Python `CNEC_TYPE_MAP.get(code, f"Unknown Code ({code})")`
(analyze.py line 124). -/
def CNEC_lookup (code : String) : String :=
  (CNEC_TYPE_MAP.lookup code).getD ("Unknown Code (" ++ code ++ ")")

/-- The Tag Normalizer on a short type code: an empty code (a tag such as
`"B-"` with nothing after the separator, where analyze.py line 119 tests
`len(primary_tag) > 2`) is replaced by `"unk"`, then the table lookup of
line 124 applies.  `tagType code` equals the `full_type_name` that
`parse_tag_and_type` computes for the tag `"B-" ++ code`. -/
def tagType (code : String) : String :=
  CNEC_lookup (if code = "" then "unk" else code)

/-- The first two steps of `parse_tag_and_type` (analyze.py lines 104-112):
extract the value of an `NE=` feature from a CoNLL-U MISC-style field if
one is present, then keep only the first pipe-separated tag layer. -/
def primary_layer (raw_tag_field : String) : String :=
  let raw :=
    if pyContains "NE=" raw_tag_field then
      match (pySplit '|' raw_tag_field).find? (fun feat => pyStartsWith "NE=" feat) with
      | some feat => (pySplit '=' feat).getD 1 ""
      | none => raw_tag_field
    else raw_tag_field
  (pySplit '|' raw).headD ""

/-- Model of `parse_tag_and_type` (analyze.py lines 99-127): returns the
BIO tag and the optional full type description.  The source computes
`short_code = primary_tag[2:] if len(primary_tag) > 2 else "unk"` and then
looks it up; `tagType (pyDropN 2 primary_tag)` is that composition, since
`primary_tag[2:]` is empty exactly when `len(primary_tag)` is not `> 2`
for a tag starting with `B-` or `I-`. -/
def parse_tag_and_type (raw_tag_field : String) : String × Option String :=
  let primary_tag := primary_layer raw_tag_field
  if primary_tag = "O" then ("O", none)
  else if pyStartsWith "B-" primary_tag || pyStartsWith "I-" primary_tag then
    (primary_tag, some (tagType (pyDropN 2 primary_tag)))
  else ("O", none)

/-! ## api_util/analyze.py — BIO decoding grouped by page. -/

/-- The loop state of `get_entities_by_page` (analyze.py lines 137-141).
`acc` is the flat emission-order list of `(page, entity text, type)`;
the Python per-page dict is recovered by filtering on the page key
(dict insertion order per key equals emission order). -/
structure BioState where
  page : Nat
  toks : List String
  ty : Option String
  acc : List (Nat × String × Option String)
deriving DecidableEq, Repr

/-- Emit the currently open span, if any (the Python
`pages.setdefault(curr_page, []).append((" ".join(curr_toks), curr_type))`
appearing at analyze.py lines 187, 199 and 205). -/
def flushSpan (st : BioState) : BioState :=
  if st.toks.isEmpty then st
  else { st with acc := st.acc ++ [(st.page, pyJoin " " st.toks, st.ty)] }

/-- One step of the BIO logic of analyze.py lines 181-201 for a single
`(token, raw tag)` pair. -/
def bioStep (st : BioState) (tok raw_tag : String) : BioState :=
  let r := parse_tag_and_type raw_tag
  let tag := r.1
  let full_etype := r.2
  if pyStartsWith "B" tag || (tag != "O" && st.toks.isEmpty) then
    { flushSpan st with toks := [tok], ty := full_etype }
  else if pyStartsWith "I" tag && !st.toks.isEmpty then
    { st with toks := st.toks ++ [tok] }
  else
    if st.toks.isEmpty then st
    else { flushSpan st with toks := [], ty := none }

/-- Column selection and token step for a data line (analyze.py lines
167-201): split on tabs, fall back to whitespace splitting, skip lines
with fewer than two fields, pick the token and raw-tag columns, and run
the BIO step. -/
def procData (st : BioState) (line : String) : BioState :=
  let parts0 := pySplit '\t' line
  let parts := if parts0.length < 2 then pySplitWs line else parts0
  if parts.length < 2 then st
  else
    let tok := if parts.length = 2 then parts.getD 0 "" else parts.getD 1 ""
    let raw_tag := if parts.length = 2 then parts.getD 1 "" else parts.getLastD ""
    bioStep st tok raw_tag

/-- Processing of one input line by `get_entities_by_page`
(analyze.py lines 145-201): page detection on `# sent_id` comments,
comment/blank skipping, default page 1, then the data-line step. -/
def procLine (st : BioState) (rawLine : String) : BioState :=
  let line := pyTrim rawLine
  if pyStartsWith "# sent_id" line then
    let parts := pySplit1 '=' line
    if 1 < parts.length && pyTrim (parts.getD 1 "") == "1" then
      { st with page := st.page + 1 }
    else st
  else if line == "" || pyStartsWith "#" line then st
  else procData (if st.page = 0 then { st with page := 1 } else st) line

/-- Model of `get_entities_by_page` (analyze.py lines 130-211) on the list
of input lines: fold the per-line step over the stream, then flush any
still-open span at end of file (lines 204-205). -/
def get_entities_by_page (lines : List String) : List (Nat × String × Option String) :=
  (flushSpan (lines.foldl procLine ⟨0, [], none, []⟩)).acc

/-! ## api_util/analyze.py — per-page aggregation (`main`, lines 246-265). -/

/-- Distinct elements of a list in first-occurrence order (the key order of
a Python `Counter`, i.e. dict insertion order). -/
def firstOccs {α : Type} [DecidableEq α] : List α → List α
  | [] => []
  | x :: xs => x :: (firstOccs xs).filter (fun y => y != x)

/-- The `(element, count)` items of `Counter(l)` in first-occurrence order. -/
def counterItems {α : Type} [DecidableEq α] (l : List α) : List (α × Nat) :=
  (firstOccs l).map (fun p => (p, l.count p))

/-- Insert an item into a count-descending list, after all items of greater
or equal count (preserving first-encountered order among equal counts). -/
def insertDesc {α : Type} (x : α × Nat) : List (α × Nat) → List (α × Nat)
  | [] => [x]
  | y :: ys => if y.2 < x.2 then x :: y :: ys else y :: insertDesc x ys

/-- Stable count-descending ordering of all counter items: the semantics of
`Counter(l).most_common()` (CPython sorts descending by count, ties kept in
iteration = first-occurrence order). -/
def mostCommonAll {α : Type} [DecidableEq α] (l : List α) : List (α × Nat) :=
  (counterItems l).foldl (fun acc x => insertDesc x acc) []

/-- Model of `Counter(l).most_common(n)`. -/
def most_common {α : Type} [DecidableEq α] (n : Nat) (l : List α) : List (α × Nat) :=
  (mostCommonAll l).take n

/-- An entity span as accumulated by the decoder: text and optional type. -/
abbrev Entity := String × Option String

/-- The `top_n` constant of analyze.py line 221. -/
def top_n : Nat := 20

/-- How Python's csv writer serializes the optional type (None becomes the
empty field). -/
def typeStr (o : Option String) : String := o.getD ""

/-- The `top_n` triples of one aggregate row (analyze.py lines 254-263):
`most_common(top_n)` followed by `("", "", 0)` padding. -/
def aggTriples (entities : List Entity) : List (String × String × Nat) :=
  let c := most_common top_n entities
  c.map (fun x => (x.1.1, typeStr x.1.2, x.2)) ++
    List.replicate (top_n - c.length) ("", "", 0)

/-- A CSV field is a string or a number (the Python row mixes both). -/
inductive CsvField where
  | str (s : String)
  | num (n : Nat)
deriving DecidableEq, Repr

/-- Flatten triples into row fields (`row.extend([ne_text, ne_type, cnt])`,
analyze.py lines 257-263). -/
def fieldsOfTriples : List (String × String × Nat) → List CsvField
  | [] => []
  | t :: ts => CsvField.str t.1 :: CsvField.str t.2.1 :: CsvField.num t.2.2 :: fieldsOfTriples ts

/-- One aggregate data row (analyze.py lines 256-263):
`[fn.split('.')[0], page_num]` followed by the `top_n` triples. -/
def mkRow (fname : String) (page : Nat) (entities : List Entity) : List CsvField :=
  CsvField.str ((pySplit '.' fname).headD "") :: CsvField.num page ::
    fieldsOfTriples (aggTriples entities)

/-- The entities recorded for page `p`, in emission order (the Python
per-page dict bucket `pages_data[p]`). -/
def entriesOf (acc : List (Nat × String × Option String)) (p : Nat) : List Entity :=
  acc.filterMap (fun e => if e.1 = p then some e.2 else none)

/-- Ascending insertion for page keys. -/
def insortNat (x : Nat) : List Nat → List Nat
  | [] => [x]
  | y :: ys => if x ≤ y then x :: y :: ys else y :: insortNat x ys

/-- Python `sorted(pages_data.keys())`: the distinct page keys, ascending. -/
def sortedKeys (acc : List (Nat × String × Option String)) : List Nat :=
  (firstOccs (acc.map (fun e => e.1))).foldl (fun l k => insortNat k l) []

/-- The aggregate rows emitted for one file by `main` (analyze.py lines
247-265): iterate the page keys in ascending order, skip pages whose entity
list is empty (`if not entities: continue`), and emit one row per page. -/
def aggRows (fname : String) (acc : List (Nat × String × Option String)) :
    List (Nat × List CsvField) :=
  (sortedKeys acc).filterMap (fun p =>
    let entities := entriesOf acc p
    if entities.isEmpty then none else some (p, mkRow fname p entities))

/-! ## merger_nt_udp.py — TSV reading and merging. -/

/-- Reading of one TSV line by `merge_single_pair` (merger_nt_udp.py lines
14-24): blank lines are skipped, two or more tab-separated fields give a
`(token, tag)` record, a single field falls back to the tag `"_"`.  The
`line` number stored by the source is diagnostic bookkeeping and is
dropped here. -/
def merge_read_line (l : String) : Option (String × String) :=
  let line := pyTrim l
  if line == "" then none
  else
    let parts := pySplit '\t' line
    if 2 ≤ parts.length then some (parts.headD "", parts.getD 1 "")
    else some (parts.headD "", "_")

/-- The TSV reading loop of `merge_single_pair` (merger_nt_udp.py lines
11-24). -/
def merge_read_tsv : List String → List (String × String)
  | [] => []
  | l :: ls =>
    match merge_read_line l with
    | none => merge_read_tsv ls
    | some r => r :: merge_read_tsv ls

/-- Whether a CoNLL-U line is a true-token data line (merger_nt_udp.py
lines 40 and 47): not blank, not a comment, at least two tab-separated
columns, and a position id containing neither `-` nor `.`.  All other
lines pass through unchanged. -/
def isTrueTokenLine (line : String) : Bool :=
  let s := pyTrim line
  if s == "" || pyStartsWith "#" s then false
  else
    let cols := pySplit '\t' s
    2 ≤ cols.length && !pyCharIn '-' (cols.headD "") && !pyCharIn '.' (cols.headD "")

/-- The MISC-column augmentation of merger_nt_udp.py lines 57-68: append
`NER=tag` to column index 9, creating or extending it. -/
def augmentCols (cols : List String) (tag : String) : List String :=
  let new_attr := "NER=" ++ tag
  if 9 < cols.length then
    if cols.getD 9 "" == "_" then cols.set 9 new_attr
    else cols.set 9 (cols.getD 9 "" ++ "|" ++ new_attr)
  else (cols ++ List.replicate (9 - cols.length) "_") ++ [new_attr]

/-- The augmented output line (`'\t'.join(cols)`, merger_nt_udp.py line
71), rebuilt from the stripped input line. -/
def augLine (line tag : String) : String :=
  pyJoin "\t" (augmentCols (pySplit '\t' (pyTrim line)) tag)

/-- Model of the merging loop of `merge_single_pair` (merger_nt_udp.py
lines 29-78), with the TSV records already read and `tsv_index` as the
alignment cursor.  Comments, blanks and grouping-artifact lines all pass
through unchanged (lines 41, 75, 78 of the source write the original
line); a true-token line is augmented with the cursor's tag and advances
the cursor, or passes through once the cursor has reached the end.  The
token-mismatch warning of lines 52-54 only writes a diagnostic and does
not affect the output. -/
def merge_single_pair (tsv : List (String × String)) : Nat → List String → List String
  | _, [] => []
  | tsv_index, line :: rest =>
    if isTrueTokenLine line then
      if tsv_index < tsv.length then
        augLine line (tsv.getD tsv_index ("", "")).2 ::
          merge_single_pair tsv (tsv_index + 1) rest
      else line :: merge_single_pair tsv tsv_index rest
    else line :: merge_single_pair tsv tsv_index rest

/-- The number of true-token lines in a stream. -/
def countTT (lines : List String) : Nat := (lines.filter isTrueTokenLine).length

/-! ## api_util/summarize_nt_udp.py — per-document TSV gathering. -/

/-- Reading of one data line by `get_sorted_tsv_content`
(summarize_nt_udp.py lines 55-63): like the merger's reader but with the
fallback tag `"O"`. -/
def sum_read_line (l : String) : Option (String × String) :=
  let line := pyTrim l
  if line == "" then none
  else
    let parts := pySplit '\t' line
    if 2 ≤ parts.length then some (parts.headD "", parts.getD 1 "")
    else some (parts.headD "", "O")

/-- The line loop of `get_sorted_tsv_content` after the header skip. -/
def sum_read_body : List String → List (String × String)
  | [] => []
  | l :: ls =>
    match sum_read_line l with
    | none => sum_read_body ls
    | some r => r :: sum_read_body ls

/-- Model of the per-file part of `get_sorted_tsv_content`
(api_util/summarize_nt_udp.py lines 52-63): `header = next(f, None)`
consumes the first line of the file unconditionally, then every remaining
non-blank line is parsed as a record. -/
def sum_read_file (lines : List String) : List (String × String) :=
  sum_read_body (lines.drop 1)

/-! ## Predicates used by the invariant claims. -/

/-- A canonical type name: either a value of the fixed table or a
synthesized unknown-code marker. -/
def validName (name : String) : Prop :=
  (∃ p, p ∈ CNEC_TYPE_MAP ∧ name = p.2) ∨
    ∃ code, name = "Unknown Code (" ++ code ++ ")"

/-- A well-formed emitted entity: joined from at least one token, with a
resolved canonical type. -/
def goodEntry (e : Nat × String × Option String) : Prop :=
  ∃ toks name, toks ≠ [] ∧ e.2.1 = pyJoin " " toks ∧ e.2.2 = some name ∧ validName name

/-- The decoder-state invariant: an open span always has a resolved type,
and everything emitted so far is well formed. -/
def goodState (st : BioState) : Prop :=
  (st.toks = [] ∨ ∃ name, st.ty = some name ∧ validName name) ∧
    ∀ e ∈ st.acc, goodEntry e

/-! ## Helper lemmas. -/

theorem lookup_mem {l : List (String × String)} {k v : String}
    (h : List.lookup k l = some v) : (k, v) ∈ l := by
  induction l with
  | nil => simp [List.lookup] at h
  | cons p t ih =>
    obtain ⟨k1, v1⟩ := p
    rw [List.lookup_cons] at h
    cases hbeq : (k == k1) with
    | false => rw [hbeq] at h; exact List.mem_cons_of_mem _ (ih h)
    | true =>
      rw [hbeq] at h
      cases h
      exact (eq_of_beq hbeq) ▸ List.mem_cons_self _ _

theorem CNEC_vals_ne_empty : ∀ p ∈ CNEC_TYPE_MAP, p.2 ≠ "" := by decide

theorem pyLen_append (a b : String) : pyLen (a ++ b) = pyLen a + pyLen b := by
  simp [pyLen, String.data_append]

theorem unknown_code_ne_empty (code : String) :
    ("Unknown Code (" ++ code ++ ")") ≠ "" := by
  intro h
  have h2 := congrArg pyLen h
  rw [pyLen_append, pyLen_append] at h2
  simp [pyLen] at h2

theorem validName_CNEC_lookup (code : String) : validName (CNEC_lookup code) := by
  unfold CNEC_lookup validName
  cases h : List.lookup code CNEC_TYPE_MAP with
  | none => exact Or.inr ⟨code, by simp⟩
  | some v => exact Or.inl ⟨(code, v), lookup_mem h, by simp⟩

theorem CNEC_lookup_ne_empty (code : String) : CNEC_lookup code ≠ "" := by
  unfold CNEC_lookup
  cases h : List.lookup code CNEC_TYPE_MAP with
  | none => simpa using unknown_code_ne_empty code
  | some v => simpa using CNEC_vals_ne_empty (code, v) (lookup_mem h)

theorem validName_tagType (code : String) : validName (tagType code) := by
  unfold tagType; exact validName_CNEC_lookup _

theorem parse_shape (raw : String) :
    ((parse_tag_and_type raw).1 = "O" ∧ (parse_tag_and_type raw).2 = none) ∨
    (∃ name, (parse_tag_and_type raw).2 = some name ∧ validName name) := by
  unfold parse_tag_and_type
  by_cases h1 : primary_layer raw = "O"
  · left; simp [h1]
  · cases hB : (pyStartsWith "B-" (primary_layer raw) ||
        pyStartsWith "I-" (primary_layer raw)) with
    | false => left; rw [if_neg h1, hB]; simp
    | true =>
      right
      rw [if_neg h1, hB]
      exact ⟨_, rfl, validName_tagType _⟩

theorem startsWith_I_ne_O {t : String} (h : pyStartsWith "I-" t = true) : t ≠ "O" := by
  intro he
  rw [he] at h
  exact absurd h (by decide)

theorem bioStep_open (st : BioState) (tok raw : String)
    (hcond : (pyStartsWith "B" (parse_tag_and_type raw).1 ||
      ((parse_tag_and_type raw).1 != "O" && st.toks.isEmpty)) = true) :
    bioStep st tok raw =
      { flushSpan st with toks := [tok], ty := (parse_tag_and_type raw).2 } := by
  simp only [bioStep]
  rw [hcond]
  simp

/-! ## Claim theorems. -/

/-- C1: end-to-end example — on the primary stream with true tokens
`Praha je hlavní město` at positions 1-4 and secondary tags
`B-gu O O O`, the decoder emits exactly one span `"Praha"` typed
`"Settlement name (City/Town)"` (the table entry for `"gu"`), the merger
gives the first true-token line the attribute `NER=B-gu` in its MISC
field, and the aggregate triples for that page are
`("Praha", "Settlement name (City/Town)", 1)` followed by `top_n - 1`
padding triples, with page 1 the only aggregate row. -/
theorem claim_C1_end_to_end :
    get_entities_by_page ["Praha\tB-gu", "je\tO", "hlavní\tO", "město\tO"] =
      [(1, "Praha", some "Settlement name (City/Town)")] ∧
    merge_single_pair [("Praha", "B-gu"), ("je", "O"), ("hlavní", "O"), ("město", "O")] 0
      ["# sent_id = 1",
       "1\tPraha\tPraha\tPROPN\t_\t_\t0\troot\t_\t_",
       "2\tje\tbýt\tAUX\t_\t_\t0\troot\t_\t_",
       "3\thlavní\thlavní\tADJ\t_\t_\t0\troot\t_\t_",
       "4\tměsto\tměsto\tNOUN\t_\t_\t0\troot\t_\t_"] =
      ["# sent_id = 1",
       "1\tPraha\tPraha\tPROPN\t_\t_\t0\troot\t_\tNER=B-gu",
       "2\tje\tbýt\tAUX\t_\t_\t0\troot\t_\tNER=O",
       "3\thlavní\thlavní\tADJ\t_\t_\t0\troot\t_\tNER=O",
       "4\tměsto\tměsto\tNOUN\t_\t_\t0\troot\t_\tNER=O"] ∧
    aggTriples [("Praha", some "Settlement name (City/Town)")] =
      ("Praha", "Settlement name (City/Town)", 1) :: List.replicate 19 ("", "", 0) ∧
    (aggRows "doc" (get_entities_by_page
        ["Praha\tB-gu", "je\tO", "hlavní\tO", "město\tO"])).map (fun r => r.1) = [1] :=
  ⟨by decide, by decide, by decide, by decide⟩

/-- C2: the claim says an open span is flushed when the page boundary
advances, so that no emitted span straddles a page boundary.  The code
does not flush at a `# sent_id = 1` marker: on this input the span opened
by `Praha B-gu` on page 1 is continued by `Brno I-gu` on page 2 and
emitted as the single cross-page span `"Praha Brno"`, attributed to
page 2 — contradicting the claim and the source's own comment
(analyze.py lines 154-156). -/
theorem claim_C2_cross_page_span :
    get_entities_by_page ["Praha\tB-gu", "# sent_id = 1", "Brno\tI-gu"] =
      [(2, "Praha Brno", some "Settlement name (City/Town)")] := by decide

/-- C3 counterexample: an `I-gu` tag arriving with no open span opens a
span (the decoder's condition `tag != 'O' and not curr_toks` fires), so
a span text does begin at an I-tagged token, contrary to the claim that
it is treated as `O`. -/
theorem claim_C3_counterexample :
    get_entities_by_page ["Praha\tI-gu"] =
      [(1, "Praha", some "Settlement name (City/Town)")] ∧
    (bioStep ⟨1, [], none, []⟩ "Praha" "I-gu").toks = ["Praha"] :=
  ⟨by decide, by decide⟩

/-- C3 amended: in the BIO decoder, for every (token, tag) pair whose
reduced tag is `I`-prefixed and with empty decoder state, the tag is
treated as an implicit `B`: a new span is opened containing exactly that
token, whose type is the tag's resolved type (which is present). -/
theorem claim_C3_empty_I_opens_span (st : BioState) (tok raw : String)
    (hempty : st.toks = [])
    (hI : pyStartsWith "I-" (parse_tag_and_type raw).1 = true) :
    bioStep st tok raw =
      { st with toks := [tok], ty := (parse_tag_and_type raw).2 } ∧
    ((parse_tag_and_type raw).2).isSome = true := by
  have hO : (parse_tag_and_type raw).1 ≠ "O" := startsWith_I_ne_O hI
  have hcond : (pyStartsWith "B" (parse_tag_and_type raw).1 ||
      ((parse_tag_and_type raw).1 != "O" && st.toks.isEmpty)) = true := by
    rw [hempty]
    simp [bne_iff_ne, hO]
  constructor
  · rw [bioStep_open st tok raw hcond]
    rw [flushSpan, if_pos (by rw [hempty]; rfl)]
  · rcases parse_shape raw with ⟨h1, _⟩ | ⟨name, h2, _⟩
    · exact absurd h1 hO
    · rw [h2]; rfl

/-- C3 witness: the amended theorem applied at the concrete empty state
and the pair `("Praha", "I-gu")`. -/
theorem claim_C3_empty_I_opens_span_witness :
    bioStep ⟨1, [], none, []⟩ "Praha" "I-gu" =
      { page := 1, toks := ["Praha"],
        ty := (parse_tag_and_type "I-gu").2, acc := [] } ∧
    ((parse_tag_and_type "I-gu").2).isSome = true :=
  claim_C3_empty_I_opens_span ⟨1, [], none, []⟩ "Praha" "I-gu" rfl (by decide)

/-- C4 counterexample: the malformed tag `"X-gu"` (neither `O` nor
`B-`/`I-`-prefixed) is reduced to `("O", none)` by `parse_tag_and_type`,
so with empty state no span is opened — contrary to the claim that a
new span containing the token is opened. -/
theorem claim_C4_counterexample :
    parse_tag_and_type "X-gu" = ("O", none) ∧
    get_entities_by_page ["Praha\tX-gu"] = [] :=
  ⟨by decide, by decide⟩

/-- C4 amended: a malformed raw tag (first layer neither `"O"` nor
`B-`/`I-`-prefixed) is reduced to `("O", none)` by the tag parser, and a
token carrying it with empty decoder state is treated exactly as `O`:
the state is unchanged and no span is opened. -/
theorem claim_C4_malformed_is_O (raw : String)
    (h1 : primary_layer raw ≠ "O")
    (h2 : pyStartsWith "B-" (primary_layer raw) = false)
    (h3 : pyStartsWith "I-" (primary_layer raw) = false) :
    parse_tag_and_type raw = ("O", none) ∧
    ∀ st : BioState, ∀ tok : String, st.toks = [] → bioStep st tok raw = st := by
  have hp : parse_tag_and_type raw = ("O", none) := by
    unfold parse_tag_and_type
    rw [if_neg h1, h2, h3]
    simp
  refine ⟨hp, fun st tok hempty => ?_⟩
  simp only [bioStep, hp]
  rw [hempty]
  simp [(by decide : pyStartsWith "B" "O" = false),
    (by decide : pyStartsWith "I" "O" = false)]

/-- C4 witness: the amended theorem applied at `"X-gu"`, the empty
state, and the token `"Praha"`. -/
theorem claim_C4_malformed_is_O_witness :
    parse_tag_and_type "X-gu" = ("O", none) ∧
    ∀ st : BioState, ∀ tok : String, st.toks = [] → bioStep st tok "X-gu" = st :=
  claim_C4_malformed_is_O "X-gu" (by decide) (by decide) (by decide)

/-- C5: the Tag Normalizer is total and pure — an exact table match
yields the canonical name, a non-matching non-empty code yields exactly
the synthesized unknown-code marker with the code preserved, the empty
code resolves through `"unk"` to `"Unknown Type"`, and the result is
always a non-empty string. -/
theorem claim_C5_normalizer_total (code : String) :
    (code ≠ "" → ∀ name, List.lookup code CNEC_TYPE_MAP = some name →
      tagType code = name) ∧
    (code ≠ "" → List.lookup code CNEC_TYPE_MAP = none →
      tagType code = "Unknown Code (" ++ code ++ ")") ∧
    tagType "" = "Unknown Type" ∧
    tagType code ≠ "" := by
  refine ⟨?_, ?_, by decide, ?_⟩
  · intro hne name hl
    simp [tagType, hne, CNEC_lookup, hl]
  · intro hne hl
    simp [tagType, hne, CNEC_lookup, hl]
  · unfold tagType
    exact CNEC_lookup_ne_empty _

/-- C5 witness: the normalizer theorem applied at the concrete codes
`"gu"` (table hit), `"zz"` (miss), and `""` (empty). -/
theorem claim_C5_normalizer_total_witness :
    tagType "gu" = "Settlement name (City/Town)" ∧
    tagType "zz" = "Unknown Code (zz)" ∧
    tagType "" = "Unknown Type" :=
  ⟨(claim_C5_normalizer_total "gu").1 (by decide) _ (by decide),
   (claim_C5_normalizer_total "zz").2.1 (by decide) (by decide),
   (claim_C5_normalizer_total "").2.2.1⟩

theorem fieldsOfTriples_length (ts : List (String × String × Nat)) :
    (fieldsOfTriples ts).length = 3 * ts.length := by
  induction ts with
  | nil => rfl
  | cons t ts ih =>
    simp [fieldsOfTriples, ih]
    ring

theorem aggTriples_length (entities : List Entity) :
    (aggTriples entities).length = top_n := by
  simp only [aggTriples, most_common, List.length_append, List.length_map,
    List.length_replicate, List.length_take]
  omega

/-- C7: every aggregate data row has exactly `3 * top_n + 2` fields —
with `top_n = 20`, exactly 62 fields — regardless of the entities. -/
theorem claim_C7_row_width (fname : String) (page : Nat) (entities : List Entity) :
    (mkRow fname page entities).length = 3 * top_n + 2 ∧ 3 * top_n + 2 = 62 := by
  refine ⟨?_, by decide⟩
  simp only [mkRow, List.length_cons, fieldsOfTriples_length, aggTriples_length]

/-- C9 counterexample: `merge_single_pair`'s TSV reader parses a header
line `Word<TAB>Tag` as an ordinary data record, and
`get_sorted_tsv_content` discards the first line of a header-less file,
losing the record `("Praha", "B-gu")` — both contradict the claim that a
header is detected and skipped and that no data record is lost. -/
theorem claim_C9_counterexample :
    merge_read_tsv ["Word\tTag", "Praha\tB-gu"] =
      [("Word", "Tag"), ("Praha", "B-gu")] ∧
    sum_read_file ["Praha\tB-gu", "je\tO"] = [("je", "O")] :=
  ⟨by decide, by decide⟩

/-- C9 amended: neither reader detects a header.  The merger's TSV
reader parses every line — including a header, if present — through the
uniform per-line rule, and the summarizer's reader unconditionally
discards the first line of each file whether or not it is a header. -/
theorem claim_C9_no_header_detection (lines : List String) :
    merge_read_tsv lines = lines.filterMap merge_read_line ∧
    sum_read_file lines = (lines.drop 1).filterMap sum_read_line := by
  constructor
  · induction lines with
    | nil => rfl
    | cons l ls ih =>
      simp only [merge_read_tsv, List.filterMap_cons]
      cases h : merge_read_line l <;> simp [h, ih]
  · show sum_read_body (lines.drop 1) = _
    generalize lines.drop 1 = body
    induction body with
    | nil => rfl
    | cons l ls ih =>
      simp only [sum_read_body, List.filterMap_cons]
      cases h : sum_read_line l <;> simp [h, ih]

theorem countTT_nil : countTT [] = 0 := rfl

theorem countTT_cons (l : String) (ls : List String) :
    countTT (l :: ls) = (if isTrueTokenLine l = true then 1 else 0) + countTT ls := by
  simp only [countTT, List.filter_cons]
  cases h : isTrueTokenLine l
  · simp [h]
  · simp [h, Nat.add_comm]

theorem merge_single_pair_length (tsv : List (String × String)) :
    ∀ (lines : List String) (idx : Nat),
      (merge_single_pair tsv idx lines).length = lines.length := by
  intro lines
  induction lines with
  | nil => intro idx; rfl
  | cons l rest ih =>
    intro idx
    simp only [merge_single_pair]
    by_cases h1 : isTrueTokenLine l = true
    · by_cases h2 : idx < tsv.length
      · simp [h1, h2, ih]
      · simp [h1, h2, ih]
    · simp [h1, ih]

theorem merge_single_pair_getD (tsv : List (String × String)) :
    ∀ (lines : List String) (idx i : Nat), i < lines.length →
      (merge_single_pair tsv idx lines).getD i "" =
        (if isTrueTokenLine (lines.getD i "") = true ∧
            idx + countTT (lines.take i) < tsv.length
         then augLine (lines.getD i "")
                (tsv.getD (idx + countTT (lines.take i)) ("", "")).2
         else lines.getD i "") := by
  intro lines
  induction lines with
  | nil => intro idx i h; exact absurd h (by simp)
  | cons l rest ih =>
    intro idx i hi
    cases i with
    | zero =>
      simp only [List.getD_cons_zero, List.take_zero, countTT_nil, Nat.add_zero]
      simp only [merge_single_pair]
      by_cases h1 : isTrueTokenLine l = true
      · by_cases h2 : idx < tsv.length
        · simp [h1, h2]
        · simp [h1, h2]
      · simp [h1]
    | succ i =>
      have hi2 : i < rest.length := by simpa using hi
      simp only [List.getD_cons_succ, List.take_succ_cons, countTT_cons]
      simp only [merge_single_pair]
      by_cases h1 : isTrueTokenLine l = true
      · simp only [h1, if_true]
        by_cases h2 : idx < tsv.length
        · rw [if_pos h2]
          simp only [List.getD_cons_succ]
          rw [ih (idx + 1) i hi2]
          have harith : idx + 1 + countTT (List.take i rest) =
              idx + (1 + countTT (List.take i rest)) := by omega
          rw [harith]
        · rw [if_neg h2]
          simp only [List.getD_cons_succ]
          rw [ih idx i hi2]
          have hge : tsv.length ≤ idx := Nat.le_of_not_lt h2
          have hf1 : ¬(idx + countTT (List.take i rest) < tsv.length) := by omega
          have hf2 : ¬(idx + (1 + countTT (List.take i rest)) < tsv.length) := by omega
          rw [if_neg (fun hand => hf1 hand.2), if_neg (fun hand => hf2 hand.2)]
      · rw [if_neg h1]
        simp only [List.getD_cons_succ]
        rw [ih idx i hi2, if_neg h1]
        simp

/-- C8: the Aligner/Merger characterization — the output has one line per
input line; a line at index `i` is augmented with the tag at cursor
position `countTT (lines.take i)` (the number of true-token lines before
it, each consuming exactly one secondary element, passthrough lines
consuming none) exactly when it is itself a true-token line and that
cursor is still below the secondary stream's length; every other line —
comments, blanks, grouping artifacts, and every line after the cursor
reaches the end of the secondary stream — is emitted unchanged, and the
merge always completes. -/
theorem claim_C8_alignment (tsv : List (String × String)) (lines : List String) :
    (merge_single_pair tsv 0 lines).length = lines.length ∧
    ∀ i, i < lines.length →
      (merge_single_pair tsv 0 lines).getD i "" =
        (if isTrueTokenLine (lines.getD i "") = true ∧
            countTT (lines.take i) < tsv.length
         then augLine (lines.getD i "")
                (tsv.getD (countTT (lines.take i)) ("", "")).2
         else lines.getD i "") := by
  refine ⟨merge_single_pair_length tsv lines 0, fun i hi => ?_⟩
  have h := merge_single_pair_getD tsv lines 0 i hi
  simpa using h

/-- C8 witness: the alignment theorem applied to a concrete pair —
line 1 is a true-token line with zero true tokens before it, so it is
augmented with the first (and only) secondary tag. -/
theorem claim_C8_alignment_witness :
    (merge_single_pair [("Praha", "B-gu")] 0 ["# c", "1\tPraha", "2\tje"]).getD 1 "" =
      "1\tPraha\t_\t_\t_\t_\t_\t_\t_\tNER=B-gu" := by
  have h := (claim_C8_alignment [("Praha", "B-gu")] ["# c", "1\tPraha", "2\tje"]).2 1
    (by decide)
  rw [h]
  decide

theorem flushSpan_good {st : BioState} (h : goodState st) : goodState (flushSpan st) := by
  unfold flushSpan
  by_cases he : st.toks.isEmpty = true
  · rw [if_pos he]; exact h
  · rw [if_neg he]
    obtain ⟨hty, hacc⟩ := h
    have htoks : st.toks ≠ [] := by simpa [List.isEmpty_iff] using he
    rcases hty with h0 | ⟨name, hsome, hvalid⟩
    · exact absurd h0 htoks
    refine ⟨Or.inr ⟨name, hsome, hvalid⟩, ?_⟩
    intro e he2
    rcases List.mem_append.mp he2 with hmem | hmem
    · exact hacc e hmem
    · have : e = (st.page, pyJoin " " st.toks, st.ty) := by simpa using hmem
      subst this
      exact ⟨st.toks, name, htoks, rfl, hsome, hvalid⟩

theorem bioStep_good {st : BioState} (h : goodState st) (tok raw : String) :
    goodState (bioStep st tok raw) := by
  simp only [bioStep]
  by_cases hc1 : (pyStartsWith "B" (parse_tag_and_type raw).1 ||
      ((parse_tag_and_type raw).1 != "O" && st.toks.isEmpty)) = true
  · rw [if_pos hc1]
    have hO : (parse_tag_and_type raw).1 ≠ "O" := by
      intro heq
      rw [heq] at hc1
      simp [(by decide : pyStartsWith "B" "O" = false)] at hc1
    rcases parse_shape raw with ⟨h1, _⟩ | ⟨name, h2, hvalid⟩
    · exact absurd h1 hO
    refine ⟨Or.inr ⟨name, h2, hvalid⟩, ?_⟩
    intro e he2
    exact (flushSpan_good h).2 e he2
  · rw [if_neg hc1]
    by_cases hc2 : (pyStartsWith "I" (parse_tag_and_type raw).1 && !st.toks.isEmpty) = true
    · rw [if_pos hc2]
      obtain ⟨hty, hacc⟩ := h
      have htoksne : st.toks ≠ [] := by
        have h2 := (Bool.and_eq_true _ _).mp hc2
        simpa [List.isEmpty_iff] using h2.2
      rcases hty with h0 | hv
      · exact absurd h0 htoksne
      exact ⟨Or.inr hv, fun e he2 => hacc e he2⟩
    · rw [if_neg hc2]
      by_cases he : st.toks.isEmpty = true
      · rw [if_pos he]; exact h
      · rw [if_neg he]
        exact ⟨Or.inl rfl, fun e he2 => (flushSpan_good h).2 e he2⟩

theorem procData_good {st : BioState} (h : goodState st) (line : String) :
    goodState (procData st line) := by
  simp only [procData]
  by_cases h1 : (pySplit '\t' line).length < 2
  · rw [if_pos h1]
    by_cases h2 : (pySplitWs line).length < 2
    · rw [if_pos h2]; exact h
    · rw [if_neg h2]; exact bioStep_good h _ _
  · rw [if_neg h1, if_neg h1]
    exact bioStep_good h _ _

theorem procLine_good {st : BioState} (h : goodState st) (line : String) :
    goodState (procLine st line) := by
  simp only [procLine]
  split
  · split
    · exact ⟨h.1, h.2⟩
    · exact h
  · split
    · exact h
    · apply procData_good
      by_cases h0 : st.page = 0
      · rw [if_pos h0]; exact ⟨h.1, h.2⟩
      · rw [if_neg h0]; exact h

theorem foldl_procLine_good (lines : List String) :
    ∀ st : BioState, goodState st → goodState (lines.foldl procLine st) := by
  induction lines with
  | nil => intro st h; exact h
  | cons l ls ih => intro st h; exact ih _ (procLine_good h l)

/-- C10: every entity span emitted by `get_entities_by_page` is non-empty
(joined from at least one token) and carries a resolved canonical type —
a value of the fixed type table or a synthesized unknown-code marker;
in particular `O`-tagged tokens never open a span. -/
theorem claim_C10_spans_wellformed (lines : List String)
    (e : Nat × String × Option String) (he : e ∈ get_entities_by_page lines) :
    ∃ toks name, toks ≠ [] ∧ e.2.1 = pyJoin " " toks ∧ e.2.2 = some name ∧
      ((∃ p, p ∈ CNEC_TYPE_MAP ∧ name = p.2) ∨
        ∃ code, name = "Unknown Code (" ++ code ++ ")") := by
  have h0 : goodState ⟨0, [], none, []⟩ := ⟨Or.inl rfl, by simp⟩
  have hf := flushSpan_good (foldl_procLine_good lines _ h0)
  exact hf.2 e he

/-- C10 witness: the theorem applied to the single span that the decoder
emits on the input line `Praha<TAB>B-gu`. -/
theorem claim_C10_spans_wellformed_witness :
    ∃ toks name, toks ≠ [] ∧
      ((1, "Praha", some "Settlement name (City/Town)") :
        Nat × String × Option String).2.1 = pyJoin " " toks ∧
      ((1, "Praha", some "Settlement name (City/Town)") :
        Nat × String × Option String).2.2 = some name ∧
      ((∃ p, p ∈ CNEC_TYPE_MAP ∧ name = p.2) ∨
        ∃ code, name = "Unknown Code (" ++ code ++ ")") :=
  claim_C10_spans_wellformed ["Praha\tB-gu"] _ (by decide)

theorem mem_insertDesc {α : Type} (x a : α × Nat) (l : List (α × Nat)) :
    a ∈ insertDesc x l ↔ a = x ∨ a ∈ l := by
  induction l with
  | nil => simp [insertDesc]
  | cons y ys ih =>
    simp only [insertDesc]
    by_cases hc : y.2 < x.2
    · rw [if_pos hc]
      simp [List.mem_cons]
    · rw [if_neg hc]
      simp [List.mem_cons, ih]
      tauto

theorem pairwise_insertDesc {α : Type} (x : α × Nat) (l : List (α × Nat))
    (h : l.Pairwise (fun p q => q.2 ≤ p.2)) :
    (insertDesc x l).Pairwise (fun p q => q.2 ≤ p.2) := by
  induction l with
  | nil => simp [insertDesc]
  | cons y ys ih =>
    rcases List.pairwise_cons.mp h with ⟨hy, hys⟩
    simp only [insertDesc]
    by_cases hc : y.2 < x.2
    · rw [if_pos hc]
      refine List.pairwise_cons.mpr ⟨?_, h⟩
      intro z hz
      rcases List.mem_cons.mp hz with rfl | hz2
      · exact Nat.le_of_lt hc
      · exact Nat.le_trans (hy z hz2) (Nat.le_of_lt hc)
    · rw [if_neg hc]
      refine List.pairwise_cons.mpr ⟨?_, ih hys⟩
      intro z hz
      rcases (mem_insertDesc x z ys).mp hz with rfl | hz2
      · exact Nat.le_of_not_lt hc
      · exact hy z hz2

theorem perm_insertDesc {α : Type} (x : α × Nat) (l : List (α × Nat)) :
    (insertDesc x l).Perm (x :: l) := by
  induction l with
  | nil => exact List.Perm.refl _
  | cons y ys ih =>
    simp only [insertDesc]
    by_cases hc : y.2 < x.2
    · rw [if_pos hc]
    · rw [if_neg hc]
      exact (ih.cons y).trans (List.Perm.swap x y ys)

theorem pairwise_foldl_insertDesc {α : Type} :
    ∀ (items acc : List (α × Nat)),
      acc.Pairwise (fun p q => q.2 ≤ p.2) →
      (items.foldl (fun a x => insertDesc x a) acc).Pairwise (fun p q => q.2 ≤ p.2) := by
  intro items
  induction items with
  | nil => intro acc h; exact h
  | cons x xs ih => intro acc h; exact ih _ (pairwise_insertDesc x acc h)

theorem perm_foldl_insertDesc {α : Type} :
    ∀ (items acc : List (α × Nat)),
      (items.foldl (fun a x => insertDesc x a) acc).Perm (items ++ acc) := by
  intro items
  induction items with
  | nil => intro acc; simp
  | cons x xs ih =>
    intro acc
    have h1 := ih (insertDesc x acc)
    have h2 : (xs ++ insertDesc x acc).Perm (xs ++ (x :: acc)) :=
      List.Perm.append_left xs (perm_insertDesc x acc)
    have h3 : (xs ++ (x :: acc)).Perm (x :: (xs ++ acc)) := List.perm_middle
    simpa using (h1.trans h2).trans h3

theorem filter_insertDesc_ne {α : Type} {c : Nat} (x : α × Nat) (l : List (α × Nat))
    (hx : x.2 ≠ c) :
    (insertDesc x l).filter (fun z => z.2 == c) = l.filter (fun z => z.2 == c) := by
  induction l with
  | nil => simp [insertDesc, List.filter_cons, hx]
  | cons y ys ih =>
    simp only [insertDesc]
    by_cases hc : y.2 < x.2
    · rw [if_pos hc]
      simp [List.filter_cons, hx]
    · rw [if_neg hc]
      cases hy : (y.2 == c) <;> simp [List.filter_cons, hy, ih]

theorem filter_insertDesc_eq {α : Type} {c : Nat} (x : α × Nat) (l : List (α × Nat))
    (hs : l.Pairwise (fun p q => q.2 ≤ p.2)) (hx : x.2 = c) :
    (insertDesc x l).filter (fun z => z.2 == c) =
      l.filter (fun z => z.2 == c) ++ [x] := by
  induction l with
  | nil => simp [insertDesc, List.filter_cons, hx]
  | cons y ys ih =>
    rcases List.pairwise_cons.mp hs with ⟨hy, hys⟩
    simp only [insertDesc]
    by_cases hc : y.2 < x.2
    · rw [if_pos hc]
      have hfil : (y :: ys).filter (fun z => z.2 == c) = [] := by
        rw [List.filter_eq_nil_iff]
        intro z hz
        rcases List.mem_cons.mp hz with rfl | hz2
        · simp; omega
        · have := hy z hz2
          simp
          omega
      rw [List.filter_cons_of_pos (by simp [hx]), hfil]
      rfl
    · rw [if_neg hc]
      cases hy2 : (y.2 == c) <;> simp [List.filter_cons, hy2, ih hys]

theorem filter_foldl_insertDesc {α : Type} {c : Nat} :
    ∀ (items acc : List (α × Nat)), acc.Pairwise (fun p q => q.2 ≤ p.2) →
      (items.foldl (fun a x => insertDesc x a) acc).filter (fun z => z.2 == c) =
        acc.filter (fun z => z.2 == c) ++ items.filter (fun z => z.2 == c) := by
  intro items
  induction items with
  | nil => intro acc h; simp
  | cons x xs ih =>
    intro acc hacc
    have h1 := ih (insertDesc x acc) (pairwise_insertDesc x acc hacc)
    show (xs.foldl (fun a x => insertDesc x a) (insertDesc x acc)).filter
        (fun z => z.2 == c) = _
    rw [h1]
    by_cases hx : x.2 = c
    · rw [filter_insertDesc_eq x acc hacc hx]
      simp [List.filter_cons, hx, List.append_assoc]
    · rw [filter_insertDesc_ne x acc hx]
      simp [List.filter_cons, hx]

theorem mem_firstOccs {α : Type} [DecidableEq α] (a : α) :
    ∀ l : List α, a ∈ firstOccs l ↔ a ∈ l := by
  intro l
  induction l with
  | nil => simp [firstOccs]
  | cons x xs ih =>
    simp only [firstOccs, List.mem_cons]
    by_cases hax : a = x
    · simp [hax]
    · simp [hax, List.mem_filter, ih, bne_iff_ne]

theorem perm_insortNat (x : Nat) (l : List Nat) : (insortNat x l).Perm (x :: l) := by
  induction l with
  | nil => exact List.Perm.refl _
  | cons y ys ih =>
    simp only [insortNat]
    by_cases hc : x ≤ y
    · rw [if_pos hc]
    · rw [if_neg hc]
      exact (ih.cons y).trans (List.Perm.swap x y ys)

theorem mem_sortedKeys (p : Nat) (acc : List (Nat × String × Option String)) :
    p ∈ sortedKeys acc ↔ p ∈ acc.map (fun e => e.1) := by
  unfold sortedKeys
  have hperm : ∀ (items accl : List Nat),
      (items.foldl (fun l k => insortNat k l) accl).Perm (items ++ accl) := by
    intro items
    induction items with
    | nil => intro accl; simp
    | cons k ks ih =>
      intro accl
      have h1 := ih (insortNat k accl)
      have h2 : (ks ++ insortNat k accl).Perm (ks ++ (k :: accl)) :=
        List.Perm.append_left ks (perm_insortNat k accl)
      have h3 : (ks ++ (k :: accl)).Perm (k :: (ks ++ accl)) := List.perm_middle
      simpa using (h1.trans h2).trans h3
  rw [(hperm _ []).mem_iff]
  simp [mem_firstOccs]

theorem entriesOf_ne_nil (acc : List (Nat × String × Option String)) (p : Nat) :
    entriesOf acc p ≠ [] ↔ p ∈ acc.map (fun e => e.1) := by
  constructor
  · intro h
    cases hE : entriesOf acc p with
    | nil => exact absurd hE h
    | cons e es =>
      have hmem : e ∈ entriesOf acc p := by
        rw [hE]; exact List.mem_cons_self _ _
      rcases List.mem_filterMap.mp hmem with ⟨a, ha, hfa⟩
      by_cases hap : a.1 = p
      · exact List.mem_map.mpr ⟨a, ha, hap⟩
      · rw [if_neg hap] at hfa; cases hfa
  · intro hmem hnil
    rcases List.mem_map.mp hmem with ⟨a, ha, hap⟩
    have hin : a.2 ∈ entriesOf acc p :=
      List.mem_filterMap.mpr ⟨a, ha, by rw [if_pos hap]⟩
    rw [hnil] at hin
    exact absurd hin (List.not_mem_nil _)

theorem aggRows_pages (fname : String) (acc : List (Nat × String × Option String))
    (p : Nat) :
    (∃ r ∈ aggRows fname acc, r.1 = p) ↔ entriesOf acc p ≠ [] := by
  unfold aggRows
  constructor
  · rintro ⟨r, hr, hrp⟩
    rcases List.mem_filterMap.mp hr with ⟨q, hq, hfq⟩
    by_cases hE : (entriesOf acc q).isEmpty = true
    · rw [if_pos hE] at hfq; cases hfq
    · rw [if_neg hE] at hfq
      cases hfq
      rw [← hrp]
      simpa [List.isEmpty_iff] using hE
  · intro hne
    refine ⟨(p, mkRow fname p (entriesOf acc p)), ?_, rfl⟩
    apply List.mem_filterMap.mpr
    refine ⟨p, ?_, ?_⟩
    · exact (mem_sortedKeys p acc).mpr ((entriesOf_ne_nil acc p).mp hne)
    · rw [if_neg (by simpa [List.isEmpty_iff] using hne)]

/-- C6: the Entity Aggregator orders the distinct (text, type) pairs of a
page descending by count (`mostCommonAll` is pairwise count-descending),
counts each distinct pair exactly once with its occurrence count (it is a
permutation of the counter items, whose keys are the distinct pairs in
first-occurrence order with `l.count` as the count), breaks count ties by
first-encountered order (filtering to any fixed count gives exactly the
counter items of that count, in their original order), and a page emits
an aggregate row precisely when its entity list is non-empty — a page
with zero spans produces no row at all. -/
theorem claim_C6_aggregator :
    (∀ l : List Entity,
      (mostCommonAll l).Pairwise (fun p q => q.2 ≤ p.2) ∧
      (mostCommonAll l).Perm (counterItems l) ∧
      ∀ c : Nat, (mostCommonAll l).filter (fun z => z.2 == c) =
        (counterItems l).filter (fun z => z.2 == c)) ∧
    (∀ (fname : String) (acc : List (Nat × String × Option String)) (p : Nat),
      (∃ r ∈ aggRows fname acc, r.1 = p) ↔ entriesOf acc p ≠ []) := by
  refine ⟨fun l => ⟨?_, ?_, fun c => ?_⟩, aggRows_pages⟩
  · exact pairwise_foldl_insertDesc _ _ List.Pairwise.nil
  · simpa using perm_foldl_insertDesc (counterItems l) []
  · simpa using filter_foldl_insertDesc (counterItems l) [] List.Pairwise.nil
